import Mathlib

/-!
# Verification of the garden log-collection dispatcher and auxiliary commands

Shallow embedding of:
* `src/src/commands/logs.ts` — `LogsCommand.action` and `dummyLogStreamer`
  (the log-collection dispatcher: service resolution, stream creation,
  consumer registration, concurrent per-service fan-out via `Bluebird.map`,
  and the fallback handler for unhandled module types);
* `src/core/src/commands/cloud/users/users-list.ts` —
  `UsersListCommand.action` (filtering and sorting of fetched users),
  `prepareDebugLogfiles` (debug-logfile retention) and `makeLogfileName`.

Conventions of the embedding:
* A handler invocation is modelled by its observable effect (`HandlerRun`):
  the ordered list of entries it writes to the shared stream, the ordered
  list of diagnostics it emits on the warning channel, and an optional
  raised error.  Handlers are arbitrary functions of the service and the
  `tail` option, so theorems quantify over all handler behaviours.
* The execution of one `action` call is modelled as a trace of events.
  Cross-collector interleaving is unspecified in JavaScript, so the trace
  is parameterised by a schedule (`sched : List Nat`): at each step the
  schedule picks which collector's next event arrives; events remaining
  after the schedule is exhausted are flushed in service order.  Theorems
  that depend on arrival order quantify over all schedules.
* `ctx.getServices` is external to the two source files; its outcome is an
  input of the model (`resolution : Except String (List Service)`); a
  thrown resolution error rejects `action` before the stream is created,
  exactly as the `await` on line 46 of `logs.ts` does.
* The source never calls `end` on the `ts-stream` stream, so the model's
  `streamClosed` flag is `false` on every path.
-/

namespace Garden

/-- A module reference: only the module type (the "module kind") is read by
the dispatcher (`service.module.type`). -/
structure ModuleRef where
  type : String
deriving Repr, DecidableEq

/-- A service descriptor as the dispatcher reads it: its name and its
owning module. -/
structure Service where
  name : String
  module : ModuleRef
deriving Repr, DecidableEq

/-- `ServiceLogEntry` from `types/plugin`: the fields the dispatcher
touches (`serviceName`, `timestamp`, `msg`).  The timestamp is an abstract
instant (milliseconds). -/
structure ServiceLogEntry where
  serviceName : String
  timestamp : Int
  msg : String
deriving Repr, DecidableEq

/-- A diagnostic record sent to the warning channel (`ctx.log.warn`),
distinct from the log-entry stream.  `sectionName` embeds the `section`
field of the source's log call. -/
structure Diagnostic where
  sectionName : String
  msg : String
deriving Repr, DecidableEq

/-- The observable effect of one handler invocation: the entries it writes
to the shared stream in emission order, the diagnostics it emits, and the
error it raises, if any (`none` = the returned promise resolves). -/
structure HandlerRun where
  writes : List ServiceLogEntry
  warns : List Diagnostic
  err : Option String
deriving Repr, DecidableEq

/-- A `getServiceLogs` handler, modelled by its effect as a function of the
service and the `tail` option. -/
def Handler : Type := Service → Bool → HandlerRun

/-- The handler registry consulted by `ctx.getActionHandler`: module type
keys mapped to handlers. -/
def Registry : Type := List (String × Handler)

/-- Registry lookup: the handler registered for a module type, if any. -/
def lookupHandler (registry : Registry) (moduleType : String) : Option Handler :=
  (registry.find? (fun p => p.1 == moduleType)).map Prod.snd

/-- `ctx.getActionHandler("getServiceLogs", service.module.type, dummyLogStreamer)`:
returns the registered handler for the module type, or the supplied
default. -/
def getActionHandler (registry : Registry) (moduleType : String) (dflt : Handler) : Handler :=
  (lookupHandler registry moduleType).getD dflt

/-- The warning message of `dummyLogStreamer` (the `chalk.yellow`
colorisation is presentation only and is dropped). -/
def dummyMsg (moduleType : String) : String :=
  "No handler for log retrieval available for module type " ++ moduleType

/-- `dummyLogStreamer` (`logs.ts` lines 68–73): writes nothing to the
stream and emits exactly one warning naming the service and its module
type; it never raises. -/
def dummyLogStreamer : Handler :=
  fun service _tail =>
    { writes := []
      warns := [{ sectionName := service.name, msg := dummyMsg service.module.type }]
      err := none }

/-- The effect of the handler the dispatcher resolves and invokes for a
given service (`logs.ts` lines 60–61). -/
def handlerRunOf (registry : Registry) (tail : Bool) (service : Service) : HandlerRun :=
  getActionHandler registry service.module.type dummyLogStreamer service tail

/-- The entries the resolved handler for a service writes to the stream. -/
def handlerWrites (registry : Registry) (tail : Bool) (service : Service) : List ServiceLogEntry :=
  (handlerRunOf registry tail service).writes

/-- One step of an `action` execution.  `write` and `warn` carry the name
of the producing collector's service.  `register` is the consumer
registration (`stream.forEach`, line 52), `spawn` the start of a
collector task, `finish`/`fail` a collector's completion or rejection, and
`ret` the return of the `action` promise. -/
inductive Event where
  | register : Event
  | spawn : String → Event
  | write : String → ServiceLogEntry → Event
  | warn : String → Diagnostic → Event
  | finish : String → Event
  | fail : String → String → Event
  | ret : Event
deriving Repr, DecidableEq

/-- Remove the head of the `i`-th queue, if that queue exists and is
nonempty. -/
def pluck : Nat → List (List α) → Option (α × List (List α))
  | _, [] => none
  | 0, q :: qs =>
    match q with
    | [] => none
    | x :: rest => some (x, rest :: qs)
  | Nat.succ i, q :: qs => (pluck i qs).map (fun p => (p.1, q :: p.2))

/-- Schedule-driven interleaving of several event queues: each schedule
step delivers the next event of the chosen queue; whatever remains when
the schedule ends is flushed in queue order.  Per-queue order is always
preserved, and every event is delivered exactly once. -/
def interleave : List Nat → List (List α) → List α
  | [], qs => qs.flatten
  | i :: rest, qs =>
    match pluck i qs with
    | some (x, qs') => x :: interleave rest qs'
    | none => interleave rest qs

/-- The events produced by one collector task: its stream writes, its
warnings, then its completion (or rejection, when the handler raised). -/
def collectorEvents (service : Service) (r : HandlerRun) : List Event :=
  r.writes.map (Event.write service.name) ++ r.warns.map (Event.warn service.name) ++
    (match r.err with
     | none => [Event.finish service.name]
     | some e => [Event.fail service.name e])

/-- The outcome of one `LogsCommand.action` call: the settled value of the
returned promise, the event trace, and whether the stream was ever
closed. -/
structure DispatchResult where
  returned : Except String (List ServiceLogEntry)
  trace : List Event
  streamClosed : Bool
deriving Repr

/-- `LogsCommand.action` (`logs.ts` lines 42–65).  If service resolution
rejects, the `await` on line 46 rejects the action before the stream is
created: the trace is empty.  Otherwise the consumer is registered
(line 52), one collector per service is spawned by `Bluebird.map`
(lines 59–62), the collectors' events interleave according to the
schedule, and the action settles: it rejects with a handler error when
one exists (propagated unchanged by `Bluebird.map`), else resolves with
the `result` array — which is never appended to, hence `[]`.  No path
calls `end` on the stream. -/
def dispatch (registry : Registry) (resolution : Except String (List Service))
    (tail : Bool) (sched : List Nat) : DispatchResult :=
  match resolution with
  | .error e => { returned := .error e, trace := [], streamClosed := false }
  | .ok services =>
    let runs := services.map (fun s => (s, handlerRunOf registry tail s))
    let body := interleave sched (runs.map (fun p => collectorEvents p.1 p.2))
    let errs := runs.filterMap (fun p => p.2.err)
    { returned := match errs with | [] => .ok [] | e :: _ => .error e
      trace := Event.register :: (services.map (fun s => Event.spawn s.name) ++ (body ++ [Event.ret]))
      streamClosed := false }

/-- The entry carried by a write event. -/
def writeEntry : Event → Option ServiceLogEntry
  | .write _ e => some e
  | _ => none

/-- The sequence of entries appended to the shared stream, in arrival
order.  The registered consumer forwards each of these, in this order, to
the display log. -/
def streamWrites (d : DispatchResult) : List ServiceLogEntry :=
  d.trace.filterMap writeEntry

/-! ## `UsersListCommand.action` (users-list.ts lines 51–131)

The cloud API and the pagination loop (lines 80–92) are external inputs of
the model: `hasApi` is whether `garden.cloudApi` is set, `project` the
result of the project lookup, and `users` the accumulated list the loop
fetched.  `applyFilter` lives in `../helpers` (not part of the reviewed
sources) and is kept abstract: the source passes it either a single string
or a list of strings; the model passes a one-element list in the first
case. -/

/-- A cloud user group, reduced to the one field the command reads. -/
structure UserGroup where
  name : String
deriving Repr, DecidableEq

/-- A fetched cloud user (`UserResult`), reduced to the fields the
command's filtering, sorting and rendering read. -/
structure UserResult where
  name : String
  id : Nat
  vcsUsername : Option String
  groups : List UserGroup
deriving Repr, DecidableEq

/-- `sortBy(users, "name")`: a stable ascending sort on the `name` key
(lodash `sortBy` is stable). -/
def sortByName (users : List UserResult) : List UserResult :=
  List.insertionSort (fun a b => a.name ≤ b.name) users

/-- `UsersListCommand.action` (users-list.ts lines 51–131): fail when the
cloud API is missing (line 57) or the project lookup came back empty
(line 67); return `[]` when no users were fetched (line 98); otherwise
sort by name, filter by the name filter then the group filter, and return
`[]` when nothing matches (line 112), else the filtered list
(line 130). -/
def usersListAction (applyFilter : List String → List String → Bool)
    (hasApi : Bool) (project : Option String) (users : List UserResult)
    (nameFilter groupFilter : List String) : Except String (List UserResult) :=
  if !hasApi then
    .error "Project is not connected to Garden Cloud"
  else
    match project with
    | none => .error "Project is not a Garden Cloud project"
    | some _ =>
      if users.isEmpty then
        .ok []
      else
        let filtered :=
          ((sortByName users).filter (fun u => applyFilter nameFilter [u.name])).filter
            (fun u => applyFilter groupFilter (u.groups.map UserGroup.name))
        if filtered.isEmpty then .ok [] else .ok filtered

/-! ## Debug-logfile retention (users-list.ts lines 148–188) -/

/-- Match of the regular-expression fragment `.*X` followed by nothing:
true when `q` occurs somewhere in `s` with only non-newline characters
skipped before it (JavaScript `.` does not match a newline). -/
def dotStarThen (q : List Char) : List Char → Bool
  | [] => List.isPrefixOf q []
  | c :: rest =>
    List.isPrefixOf q (c :: rest) || (c != '\n' && dotStarThen q rest)

/-- Unanchored match of the regular expression `p.*q` (for literal
fragments `p` and `q`) against `s`, as JavaScript `String.match` tests it:
some occurrence of `p`, then arbitrary non-newline characters, then an
occurrence of `q`. -/
def matchSeq (p q : List Char) : List Char → Bool
  | [] => List.isPrefixOf p [] && dotStarThen q []
  | c :: rest =>
    (List.isPrefixOf p (c :: rest) && dotStarThen q ((c :: rest).drop p.length)) ||
      matchSeq p q rest

/-- `filename.match(/debug.*\.log/) || filename.match(/json.*\.log/)`: the
filename patterns that make a file subject to retention. -/
def matchesLogfilePattern (filename : String) : Bool :=
  matchSeq "debug".data ".log".data filename.data ||
    matchSeq "json".data ".log".data filename.data

/-- `const logfileExpiryDays = 7` (users-list.ts line 148). -/
def logfileExpiryDays : Int := 7

/-- Milliseconds per day, the unit `moment(..).add(n, "days")` adds. -/
def msPerDay : Int := 86400000

/-- A directory entry as the retention job reads it: the filename and the
`birthtime` stat, as a millisecond instant. -/
structure FileInfo where
  name : String
  birthtime : Int
deriving Repr, DecidableEq

/-- The per-file body of the `Bluebird.map` in `prepareDebugLogfiles`
(users-list.ts lines 159–169), with `now` the current instant: skip a file
whose name matches neither pattern; delete it when
`moment(stat.birthtime).add(7, "days").isBefore(moment())`, i.e. when its
birth time plus seven days is strictly before now; keep it otherwise.
Returns the names of the deleted files. -/
def prepareDebugLogfilesDeleted (now : Int) (files : List FileInfo) : List String :=
  files.filterMap (fun f =>
    if !(matchSeq "debug".data ".log".data f.name.data) &&
        !(matchSeq "json".data ".log".data f.name.data) then
      none
    else if f.birthtime + logfileExpiryDays * msPerDay < now then
      some f.name
    else
      none)

/-- `commandFullName.replace(" ", "-")` on character lists: a string
pattern given to JavaScript `String.replace` replaces only the first
occurrence. -/
def replaceFirstChar (t r : Char) : List Char → List Char
  | [] => []
  | c :: rest => if c = t then r :: rest else c :: replaceFirstChar t r rest

/-- `makeLogfileName` (users-list.ts lines 186–188), with the
`new Date().toISOString()` call an input (`timestamp`). -/
def makeLogfileName (logLevel commandFullName extension timestamp : String) : String :=
  String.mk (replaceFirstChar ' ' '-' commandFullName.data) ++ "." ++ logLevel ++ "." ++
    timestamp ++ "." ++ extension

/-! ## Lemmas about the schedule-driven interleaving -/

theorem pluck_perm {qs qs' : List (List α)} {x : α} :
    ∀ {i : Nat}, pluck i qs = some (x, qs') →
      List.Perm (x :: qs'.flatten) qs.flatten := by
  induction qs generalizing qs' with
  | nil => intro i h; simp [pluck] at h
  | cons q rest ih =>
    intro i h
    match i with
    | 0 =>
      match q with
      | [] => simp [pluck] at h
      | y :: t =>
        simp only [pluck, Option.some.injEq, Prod.mk.injEq] at h
        obtain ⟨rfl, rfl⟩ := h
        simp
    | Nat.succ j =>
      simp only [pluck, Option.map_eq_some'] at h
      obtain ⟨⟨y, qs₂⟩, hp, heq⟩ := h
      obtain ⟨h1, h2⟩ := Prod.ext_iff.mp heq
      cases h1
      cases h2
      have hih := ih (i := j) hp
      simp only [List.flatten_cons]
      exact List.Perm.trans List.perm_middle.symm (List.Perm.append_left q hih)

theorem interleave_perm (sched : List Nat) (qs : List (List α)) :
    List.Perm (interleave sched qs) qs.flatten := by
  induction sched generalizing qs with
  | nil => simp [interleave]
  | cons i rest ih =>
    simp only [interleave]
    match hp : pluck i qs with
    | some (x, qs') =>
      exact ((ih qs').cons x).trans (pluck_perm hp)
    | none => exact ih qs

theorem interleave_nil (sched : List Nat) : interleave sched ([] : List (List α)) = [] :=
  List.perm_nil.mp (by simpa using interleave_perm sched ([] : List (List α)))

/-! ## Lemmas about the dispatch trace -/

@[simp] theorem writeEntry_register : writeEntry Event.register = none := rfl

@[simp] theorem writeEntry_spawn (n : String) : writeEntry (Event.spawn n) = none := rfl

@[simp] theorem writeEntry_write (n : String) (e : ServiceLogEntry) :
    writeEntry (Event.write n e) = some e := rfl

@[simp] theorem writeEntry_warn (n : String) (d : Diagnostic) :
    writeEntry (Event.warn n d) = none := rfl

@[simp] theorem writeEntry_finish (n : String) : writeEntry (Event.finish n) = none := rfl

@[simp] theorem writeEntry_fail (n e : String) : writeEntry (Event.fail n e) = none := rfl

@[simp] theorem writeEntry_ret : writeEntry Event.ret = none := rfl

theorem filterMap_flatten_eq (f : α → Option β) (L : List (List α)) :
    L.flatten.filterMap f = (L.map (fun l => l.filterMap f)).flatten := by
  induction L with
  | nil => rfl
  | cons l rest ih => simp [List.filterMap_append, ih]

theorem filterMap_writeEntry_spawns (services : List Service) :
    (services.map (fun s => Event.spawn s.name)).filterMap writeEntry = [] := by
  induction services with
  | nil => rfl
  | cons s rest ih => simp [List.filterMap_cons, ih]

theorem filterMap_writeEntry_collector (s : Service) (r : HandlerRun) :
    (collectorEvents s r).filterMap writeEntry = r.writes := by
  have hwrites : (r.writes.map (Event.write s.name)).filterMap writeEntry = r.writes := by
    induction r.writes with
    | nil => rfl
    | cons e rest ih => simp [List.filterMap_cons, ih]
  have hwarns : (r.warns.map (Event.warn s.name)).filterMap writeEntry = [] := by
    induction r.warns with
    | nil => rfl
    | cons d rest ih => simp [List.filterMap_cons, ih]
  cases herr : r.err <;>
    simp [collectorEvents, List.filterMap_append, hwrites, hwarns, herr, List.filterMap_cons]

/-- The entries on the stream (hence the entries the display consumer
receives) are, up to the cross-collector interleaving, exactly the entries
the resolved handlers emitted — for every schedule, count-preserving. -/
theorem streamWrites_dispatch (registry : Registry) (services : List Service)
    (tail : Bool) (sched : List Nat) :
    List.Perm (streamWrites (dispatch registry (Except.ok services) tail sched))
      ((services.map (handlerWrites registry tail)).flatten) := by
  have heq : streamWrites (dispatch registry (Except.ok services) tail sched) =
      (interleave sched ((services.map (fun s => (s, handlerRunOf registry tail s))).map
        (fun p => collectorEvents p.1 p.2))).filterMap writeEntry := by
    simp [streamWrites, dispatch, List.filterMap_append, List.filterMap_cons,
      filterMap_writeEntry_spawns]
  rw [heq]
  refine ((interleave_perm sched _).filterMap writeEntry).trans ?_
  exact List.Perm.of_eq (by
    simp only [filterMap_flatten_eq, List.map_map, Function.comp_def,
      filterMap_writeEntry_collector]
    rfl)

/-- Whether an event is a stream write performed by the collector of the
service named `n`. -/
def isWriteBy (n : String) : Event → Bool
  | .write p _ => p == n
  | _ => false

/-- Whether an event is a diagnostic emitted by the collector of the
service named `n`. -/
def isWarnBy (n : String) : Event → Bool
  | .warn p _ => p == n
  | _ => false

theorem dispatch_trace_eq (registry : Registry) (services : List Service)
    (tail : Bool) (sched : List Nat) :
    (dispatch registry (Except.ok services) tail sched).trace =
      (Event.register :: (services.map (fun s => Event.spawn s.name) ++
        interleave sched ((services.map (fun s => (s, handlerRunOf registry tail s))).map
          (fun p => collectorEvents p.1 p.2)))) ++ [Event.ret] := by
  simp [dispatch]

theorem dispatch_returned_eq (registry : Registry) (services : List Service)
    (tail : Bool) (sched : List Nat) :
    (dispatch registry (Except.ok services) tail sched).returned =
      match services.filterMap (fun s => (handlerRunOf registry tail s).err) with
      | [] => Except.ok []
      | e :: _ => Except.error e := by
  simp [dispatch, List.filterMap_map, Function.comp_def]

theorem countP_dispatch_trace (registry : Registry) (services : List Service)
    (tail : Bool) (sched : List Nat) (p : Event → Bool)
    (hreg : p Event.register = false) (hspawn : ∀ n, p (Event.spawn n) = false)
    (hret : p Event.ret = false) :
    (dispatch registry (Except.ok services) tail sched).trace.countP p =
      (services.map (fun s => (collectorEvents s (handlerRunOf registry tail s)).countP p)).sum := by
  rw [dispatch_trace_eq]
  have hspawns : (services.map (fun s => Event.spawn s.name)).countP p = 0 := by
    rw [List.countP_eq_zero]
    intro a ha
    obtain ⟨s, _, rfl⟩ := List.mem_map.mp ha
    simp [hspawn]
  simp only [List.map_map, Function.comp_def, List.countP_append, List.countP_cons,
    hreg, hret, hspawns]
  rw [(interleave_perm sched _).countP_eq p]
  simp [List.countP_flatten, List.map_map, Function.comp_def]

theorem sum_map_eq_single (l : List Service) (g : Service → Nat) (s : Service)
    (hs : s ∈ l) (hnd : (l.map Service.name).Nodup)
    (hzero : ∀ t ∈ l, t.name ≠ s.name → g t = 0) :
    (l.map g).sum = g s := by
  induction l with
  | nil => cases hs
  | cons a rest ih =>
    simp only [List.map_cons, List.nodup_cons] at hnd
    obtain ⟨hnotmem, hndrest⟩ := hnd
    rcases List.mem_cons.mp hs with rfl | hmem
    · have hrest : ((rest.map g).sum) = 0 := by
        apply List.sum_eq_zero
        intro x hx
        obtain ⟨t, ht, rfl⟩ := List.mem_map.mp hx
        exact hzero t (List.mem_cons_of_mem _ ht)
          (fun hne => hnotmem (hne ▸ List.mem_map_of_mem Service.name ht))
      simp [hrest]
    · have hne : a.name ≠ s.name := by
        intro h
        exact hnotmem (h ▸ List.mem_map_of_mem Service.name hmem)
      have ha : g a = 0 := hzero a (List.mem_cons_self a rest) hne
      have := ih hmem hndrest (fun t ht => hzero t (List.mem_cons_of_mem _ ht))
      simp [ha, this]

theorem countP_isWriteBy_collector (n : String) (s : Service) (r : HandlerRun) :
    (collectorEvents s r).countP (isWriteBy n) =
      if s.name = n then r.writes.length else 0 := by
  have hw : (r.writes.map (Event.write s.name)).countP (isWriteBy n) =
      if s.name = n then r.writes.length else 0 := by
    induction r.writes with
    | nil => simp
    | cons e rest ih =>
      by_cases h : s.name = n <;> simp [List.countP_cons, isWriteBy, ih, h]
  have hwarn : (r.warns.map (Event.warn s.name)).countP (isWriteBy n) = 0 := by
    rw [List.countP_eq_zero]
    intro a ha
    obtain ⟨d, _, rfl⟩ := List.mem_map.mp ha
    simp [isWriteBy]
  cases herr : r.err <;>
    simp [collectorEvents, List.countP_append, hw, hwarn, herr, List.countP_cons, isWriteBy]

theorem countP_isWarnBy_collector (n : String) (s : Service) (r : HandlerRun) :
    (collectorEvents s r).countP (isWarnBy n) =
      if s.name = n then r.warns.length else 0 := by
  have hw : (r.writes.map (Event.write s.name)).countP (isWarnBy n) = 0 := by
    rw [List.countP_eq_zero]
    intro a ha
    obtain ⟨e, _, rfl⟩ := List.mem_map.mp ha
    simp [isWarnBy]
  have hwarn : (r.warns.map (Event.warn s.name)).countP (isWarnBy n) =
      if s.name = n then r.warns.length else 0 := by
    induction r.warns with
    | nil => simp
    | cons d rest ih =>
      by_cases h : s.name = n <;> simp [List.countP_cons, isWarnBy, ih, h]
  cases herr : r.err <;>
    simp [collectorEvents, List.countP_append, hw, hwarn, herr, List.countP_cons, isWarnBy]

theorem finish_mem_dispatch_front (registry : Registry) (services : List Service)
    (tail : Bool) (sched : List Nat) (s : Service) (hs : s ∈ services)
    (herr : (handlerRunOf registry tail s).err = none) :
    Event.finish s.name ∈
      (Event.register :: (services.map (fun s => Event.spawn s.name) ++
        interleave sched ((services.map (fun s => (s, handlerRunOf registry tail s))).map
          (fun p => collectorEvents p.1 p.2)))) := by
  refine List.mem_cons_of_mem _ (List.mem_append_right _ ?_)
  have hperm := interleave_perm sched
    ((services.map (fun s => (s, handlerRunOf registry tail s))).map
      (fun p => collectorEvents p.1 p.2))
  rw [hperm.mem_iff, List.mem_flatten]
  refine ⟨collectorEvents s (handlerRunOf registry tail s), ?_, ?_⟩
  · simp only [List.map_map]
    exact List.mem_map_of_mem _ hs
  · simp [collectorEvents, herr]

theorem handlerRunOf_eq_dummy (registry : Registry) (tail : Bool) (s : Service)
    (h : lookupHandler registry s.module.type = none) :
    handlerRunOf registry tail s = dummyLogStreamer s tail := by
  simp [handlerRunOf, getActionHandler, h]

/-! ## Concrete fixtures used by witnesses and counterexamples -/

/-- A sample entry as emitted by a container-log handler. -/
def entryHello : ServiceLogEntry := { serviceName := "api", timestamp := 1000, msg := "hello" }

/-- A second sample entry. -/
def entryWorld : ServiceLogEntry := { serviceName := "api", timestamp := 2000, msg := "world" }

/-- A service whose module type has a registered handler. -/
def svcApi : Service := { name := "api", module := { type := "container" } }

/-- A service whose module type has no registered handler. -/
def svcDb : Service := { name := "db", module := { type := "mystery" } }

/-- A service whose module type has a handler that raises. -/
def svcTask : Service := { name := "task", module := { type := "broken" } }

/-- A registry with one well-behaved handler for `container` modules. -/
def registryOk : Registry :=
  [("container", fun _ _ => { writes := [entryHello, entryWorld], warns := [], err := none })]

/-- A registry where `container` log retrieval succeeds and `broken` log
retrieval raises. -/
def registryBoom : Registry :=
  [("container", fun _ _ => { writes := [entryHello], warns := [], err := none }),
   ("broken", fun _ _ => { writes := [], warns := [], err := some "boom" })]

/-! ## Claims about the log-collection dispatcher -/

/-- C1 (amended): for every set of services whose resolved handlers all
succeed, a non-tail dispatch settles only after every collector has
finished (each service's `finish` event precedes the `ret` event), and
the entries the handlers emitted reach the shared stream — and hence the
display consumer — exactly, count-preserving, in arrival order, for every
interleaving; but the value the action resolves with is the empty list,
not the union of emitted entries. -/
theorem c1_theorem (registry : Registry) (services : List Service) (sched : List Nat)
    (hsucc : ∀ s ∈ services, (handlerRunOf registry false s).err = none) :
    (dispatch registry (Except.ok services) false sched).returned = Except.ok [] ∧
    (dispatch registry (Except.ok services) false sched).trace.getLast? = some Event.ret ∧
    (∀ s ∈ services,
      Event.finish s.name ∈ (dispatch registry (Except.ok services) false sched).trace.dropLast) ∧
    List.Perm (streamWrites (dispatch registry (Except.ok services) false sched))
      ((services.map (handlerWrites registry false)).flatten) := by
  have hfm : services.filterMap (fun s => (handlerRunOf registry false s).err) = [] :=
    List.filterMap_eq_nil_iff.mpr hsucc
  refine ⟨?_, ?_, ?_, streamWrites_dispatch registry services false sched⟩
  · rw [dispatch_returned_eq, hfm]
  · rw [dispatch_trace_eq]
    exact List.getLast?_concat _
  · intro s hs
    rw [dispatch_trace_eq, List.dropLast_concat]
    exact finish_mem_dispatch_front registry services false sched s hs (hsucc s hs)

/-- C1 counterexample: with one service whose handler succeeds and emits
two entries, the action resolves with `[]` although the handler emitted
`[entryHello, entryWorld]` — the returned sequence does not contain the
union of emitted entries. -/
theorem c1_counterexample :
    (dispatch registryOk (Except.ok [svcApi]) false []).returned = Except.ok [] ∧
    ([svcApi].map (handlerWrites registryOk false)).flatten = [entryHello, entryWorld] :=
  ⟨rfl, rfl⟩

/-- Witness for `c1_theorem` at a concrete input. -/
theorem c1_witness :
    (∀ s ∈ [svcApi], (handlerRunOf registryOk false s).err = none) ∧
    ((dispatch registryOk (Except.ok [svcApi]) false []).returned = Except.ok [] ∧
    (dispatch registryOk (Except.ok [svcApi]) false []).trace.getLast? = some Event.ret ∧
    (∀ s ∈ [svcApi],
      Event.finish s.name ∈ (dispatch registryOk (Except.ok [svcApi]) false []).trace.dropLast) ∧
    List.Perm (streamWrites (dispatch registryOk (Except.ok [svcApi]) false []))
      (([svcApi].map (handlerWrites registryOk false)).flatten)) :=
  have h : ∀ s ∈ [svcApi], (handlerRunOf registryOk false s).err = none := by
    intro s hs
    rcases List.mem_singleton.mp hs with rfl
    rfl
  ⟨h, c1_theorem registryOk [svcApi] [] h⟩

/-- C2 (amended): when some service's handler raises, the error is not
caught or converted: `Bluebird.map` rejects and the action rejects with
the first raised error itself, so the failure is raised to the caller and
no entries are returned.  Sibling collectors are, however, not cancelled:
every service whose handler succeeds still runs to completion (its
`finish` event is in the trace) and all emitted entries are still
delivered to the shared stream and the display consumer. -/
theorem c2_theorem (registry : Registry) (services : List Service) (tail : Bool)
    (sched : List Nat) (e : String) (rest : List String)
    (hfail : services.filterMap (fun s => (handlerRunOf registry tail s).err) = e :: rest) :
    (dispatch registry (Except.ok services) tail sched).returned = Except.error e ∧
    (∀ s ∈ services, (handlerRunOf registry tail s).err = none →
      Event.finish s.name ∈ (dispatch registry (Except.ok services) tail sched).trace) ∧
    List.Perm (streamWrites (dispatch registry (Except.ok services) tail sched))
      ((services.map (handlerWrites registry tail)).flatten) := by
  refine ⟨?_, ?_, streamWrites_dispatch registry services tail sched⟩
  · rw [dispatch_returned_eq, hfail]
  · intro s hs herr
    rw [dispatch_trace_eq]
    exact List.mem_append_left _
      (finish_mem_dispatch_front registry services tail sched s hs herr)

/-- C2 counterexample: two services, the `api` handler succeeds and the
`task` handler raises `"boom"`; the action rejects with the raw `"boom"`
error — the failure aborts the caller instead of being reported in the
result, and no per-service `CollectorError` value exists anywhere in the
code. -/
theorem c2_counterexample :
    (dispatch registryBoom (Except.ok [svcApi, svcTask]) false []).returned =
      Except.error "boom" :=
  rfl

/-- Witness for `c2_theorem` at a concrete input. -/
theorem c2_witness :
    ([svcApi, svcTask].filterMap
      (fun s => (handlerRunOf registryBoom false s).err) = ["boom"]) ∧
    ((dispatch registryBoom (Except.ok [svcApi, svcTask]) false []).returned =
      Except.error "boom" ∧
    (∀ s ∈ [svcApi, svcTask], (handlerRunOf registryBoom false s).err = none →
      Event.finish s.name ∈
        (dispatch registryBoom (Except.ok [svcApi, svcTask]) false []).trace) ∧
    List.Perm (streamWrites (dispatch registryBoom (Except.ok [svcApi, svcTask]) false []))
      (([svcApi, svcTask].map (handlerWrites registryBoom false)).flatten)) :=
  have h : [svcApi, svcTask].filterMap
      (fun s => (handlerRunOf registryBoom false s).err) = ["boom"] := rfl
  ⟨h, c2_theorem registryBoom [svcApi, svcTask] false [] "boom" [] h⟩

/-- C3: for a service whose module type has no registered handler,
dispatch does not abort: the fallback `dummyLogStreamer` runs instead,
that service's collector performs zero stream writes, and it emits
exactly one diagnostic — on the warning channel, not the entry stream —
whose `sectionName` is the service's name and whose message names the
unsupported module type.  (Service names are assumed distinct, as they
are in a resolved service set.) -/
theorem c3_theorem (registry : Registry) (services : List Service) (tail : Bool)
    (sched : List Nat) (s : Service) (hs : s ∈ services)
    (hnone : lookupHandler registry s.module.type = none)
    (hnd : (services.map Service.name).Nodup) :
    (dispatch registry (Except.ok services) tail sched).trace.countP (isWriteBy s.name) = 0 ∧
    (dispatch registry (Except.ok services) tail sched).trace.countP (isWarnBy s.name) = 1 ∧
    Event.warn s.name { sectionName := s.name, msg := dummyMsg s.module.type } ∈
      (dispatch registry (Except.ok services) tail sched).trace := by
  have hdummy := handlerRunOf_eq_dummy registry tail s hnone
  refine ⟨?_, ?_, ?_⟩
  · rw [countP_dispatch_trace registry services tail sched (isWriteBy s.name) rfl
      (fun n => rfl) rfl]
    rw [sum_map_eq_single services _ s hs hnd]
    · rw [countP_isWriteBy_collector, hdummy]
      simp [dummyLogStreamer]
    · intro t _ hne
      rw [countP_isWriteBy_collector]
      simp [hne]
  · rw [countP_dispatch_trace registry services tail sched (isWarnBy s.name) rfl
      (fun n => rfl) rfl]
    rw [sum_map_eq_single services _ s hs hnd]
    · rw [countP_isWarnBy_collector, hdummy]
      simp [dummyLogStreamer]
    · intro t _ hne
      rw [countP_isWarnBy_collector]
      simp [hne]
  · rw [dispatch_trace_eq]
    refine List.mem_append_left _ (List.mem_cons_of_mem _ (List.mem_append_right _ ?_))
    have hperm := interleave_perm sched
      ((services.map (fun s => (s, handlerRunOf registry tail s))).map
        (fun p => collectorEvents p.1 p.2))
    rw [hperm.mem_iff, List.mem_flatten]
    refine ⟨collectorEvents s (handlerRunOf registry tail s), ?_, ?_⟩
    · simp only [List.map_map]
      exact List.mem_map_of_mem _ hs
    · rw [hdummy]
      simp [collectorEvents, dummyLogStreamer]

/-- Witness for `c3_theorem` at a concrete input: no handler is
registered for `svcDb`'s module type `mystery`. -/
theorem c3_witness :
    (svcDb ∈ [svcApi, svcDb] ∧
      lookupHandler registryOk svcDb.module.type = none ∧
      (([svcApi, svcDb].map Service.name).Nodup)) ∧
    ((dispatch registryOk (Except.ok [svcApi, svcDb]) false []).trace.countP
        (isWriteBy svcDb.name) = 0 ∧
    (dispatch registryOk (Except.ok [svcApi, svcDb]) false []).trace.countP
        (isWarnBy svcDb.name) = 1 ∧
    Event.warn svcDb.name { sectionName := svcDb.name, msg := dummyMsg svcDb.module.type } ∈
      (dispatch registryOk (Except.ok [svcApi, svcDb]) false []).trace) :=
  have hmem : svcDb ∈ [svcApi, svcDb] := by decide
  have hnone : lookupHandler registryOk svcDb.module.type = none := rfl
  have hnd : (([svcApi, svcDb].map Service.name)).Nodup := by decide
  ⟨⟨hmem, hnone, hnd⟩, c3_theorem registryOk [svcApi, svcDb] false [] svcDb hmem hnone hnd⟩

/-- C4: in every dispatch trace, the consumer registration event is at an
earlier position than every producer write to the shared stream — the
consumer is attached synchronously (`stream.forEach`, line 52) before
`Bluebird.map` spawns any collector (line 59), so no write can precede
registration. -/
theorem c4_theorem (registry : Registry) (resolution : Except String (List Service))
    (tail : Bool) (sched : List Nat) (i : Nat) (n : String) (e : ServiceLogEntry)
    (h : (dispatch registry resolution tail sched).trace.get? i = some (Event.write n e)) :
    ∃ j, j < i ∧
      (dispatch registry resolution tail sched).trace.get? j = some Event.register := by
  match resolution with
  | .error err => simp [dispatch] at h
  | .ok services =>
    have h0 : (dispatch registry (Except.ok services) tail sched).trace.get? 0 =
        some Event.register := by
      rw [dispatch_trace_eq]
      rfl
    match i with
    | 0 =>
      rw [h0] at h
      simp at h
    | Nat.succ k => exact ⟨0, Nat.succ_pos k, h0⟩

/-- Witness for `c4_theorem` at a concrete input: position 2 of the trace
is a producer write, and the registration event sits strictly before
it. -/
theorem c4_witness :
    ((dispatch registryOk (Except.ok [svcApi]) false []).trace.get? 2 =
      some (Event.write "api" entryHello)) ∧
    (∃ j, j < 2 ∧
      (dispatch registryOk (Except.ok [svcApi]) false []).trace.get? j =
        some Event.register) :=
  have h : (dispatch registryOk (Except.ok [svcApi]) false []).trace.get? 2 =
      some (Event.write "api" entryHello) := rfl
  ⟨h, c4_theorem registryOk (Except.ok [svcApi]) false [] 2 "api" entryHello h⟩

/-- C5: when service resolution itself rejects, the `await` on line 46
rejects the action with that error before the stream is created: the
trace is empty — no consumer registration, no collector spawn, no handler
invocation, no stream write — and the caller receives the hard error. -/
theorem c5_theorem (registry : Registry) (tail : Bool) (sched : List Nat) (e : String) :
    dispatch registry (Except.error e) tail sched =
      { returned := Except.error e, trace := [], streamClosed := false } :=
  rfl

/-- C6 (amended): with zero resolved services the action immediately
resolves with the empty sequence — the trace holds only the consumer
registration and the return, no spawn and no write — but the stream is
not closed: no code path of `LogsCommand.action` ever calls `end` on the
stream. -/
theorem c6_theorem (registry : Registry) (tail : Bool) (sched : List Nat) :
    dispatch registry (Except.ok []) tail sched =
      { returned := Except.ok [], trace := [Event.register, Event.ret],
        streamClosed := false } := by
  simp [dispatch, interleave_nil]

/-- C6 counterexample: at the concrete zero-service input the stream is
never closed (`streamClosed` is `false`), contradicting the claim that
dispatch "immediately closes the stream"; the empty-sequence half of the
claim does hold. -/
theorem c6_counterexample :
    (dispatch [] (Except.ok []) false []).streamClosed = false ∧
    (dispatch [] (Except.ok []) false []).returned = Except.ok [] :=
  ⟨rfl, rfl⟩

/-- C8: for every input — any resolution outcome, any registry and
handler behaviour, tail or non-tail, any interleaving — whenever the
action resolves, the list it resolves with is empty: the `result` array
is allocated on line 48 and returned on line 64 but never appended to;
arriving entries are only forwarded to the display log by the consumer
callback. -/
theorem c8_theorem (registry : Registry) (resolution : Except String (List Service))
    (tail : Bool) (sched : List Nat) (l : List ServiceLogEntry)
    (h : (dispatch registry resolution tail sched).returned = Except.ok l) :
    l = [] := by
  match resolution with
  | .error e => simp [dispatch] at h
  | .ok services =>
    rw [dispatch_returned_eq] at h
    match hfm : services.filterMap (fun s => (handlerRunOf registry tail s).err) with
    | [] =>
      rw [hfm] at h
      simpa using h.symm
    | e :: rest =>
      rw [hfm] at h
      simp at h

/-- Witness for `c8_theorem`: a handler emits two entries, the action
still resolves with `[]`. -/
theorem c8_witness :
    ((dispatch registryOk (Except.ok [svcApi]) false []).returned = Except.ok []) ∧
    (([] : List ServiceLogEntry) = []) :=
  have h : (dispatch registryOk (Except.ok [svcApi]) false []).returned = Except.ok [] := rfl
  ⟨h, c8_theorem registryOk (Except.ok [svcApi]) false [] [] h⟩

/-! ## Claims about the debug-logfile retention job and logfile naming -/

/-- C7: the retention job deletes a file exactly when its name matches
one of the two logfile patterns (`/debug.*\.log/` or `/json.*\.log/`) and
its birth time lies more than the fixed 7-day retention window before the
current instant; every other file is left untouched. -/
theorem c7_theorem (now : Int) (files : List FileInfo) (name : String) :
    name ∈ prepareDebugLogfilesDeleted now files ↔
      ∃ f ∈ files, f.name = name ∧ matchesLogfilePattern f.name = true ∧
        f.birthtime + logfileExpiryDays * msPerDay < now := by
  simp only [prepareDebugLogfilesDeleted, List.mem_filterMap]
  constructor
  · rintro ⟨f, hf, hsome⟩
    by_cases hpat : (!(matchSeq "debug".data ".log".data f.name.data) &&
        !(matchSeq "json".data ".log".data f.name.data)) = true
    · rw [if_pos hpat] at hsome
      cases hsome
    · rw [if_neg hpat] at hsome
      by_cases hold : f.birthtime + logfileExpiryDays * msPerDay < now
      · rw [if_pos hold] at hsome
        have hname : f.name = name := Option.some.inj hsome
        have hm : matchesLogfilePattern f.name = true := by
          simp only [matchesLogfilePattern]
          rcases Bool.eq_false_or_eq_true
              (matchSeq "debug".data ".log".data f.name.data) with hA | hA <;>
            rcases Bool.eq_false_or_eq_true
                (matchSeq "json".data ".log".data f.name.data) with hB | hB <;>
              simp [hA, hB] at hpat ⊢
        exact ⟨f, hf, hname, hm, hold⟩
      · rw [if_neg hold] at hsome
        cases hsome
  · rintro ⟨f, hf, rfl, hpat, hold⟩
    refine ⟨f, hf, ?_⟩
    have hcond : (!(matchSeq "debug".data ".log".data f.name.data) &&
        !(matchSeq "json".data ".log".data f.name.data)) = false := by
      simp only [matchesLogfilePattern, Bool.or_eq_true] at hpat
      rcases hpat with h1 | h1 <;> simp [h1]
    rw [hcond]
    simp [hold]

/-- C9 helper: replacing the first occurrence of `t` (by some `r ≠ t`)
removes exactly one occurrence of `t`. -/
theorem count_replaceFirstChar (t r : Char) (hne : r ≠ t) :
    ∀ l : List Char, t ∈ l → (replaceFirstChar t r l).count t + 1 = l.count t := by
  intro l hmem
  induction l with
  | nil => cases hmem
  | cons c rest ih =>
    by_cases hc : c = t
    · subst hc
      simp [replaceFirstChar, List.count_cons, hne]
    · have hrest : t ∈ rest := by
        rcases List.mem_cons.mp hmem with h | h
        · exact absurd h.symm hc
        · exact h
      simp [replaceFirstChar, hc, List.count_cons, ih hrest]

/-- C9: `makeLogfileName` replaces only the first space of the command's
full name (JavaScript `String.replace` with a string pattern), so for a
command full name with two or more spaces the generated logfile name
still contains a space. -/
theorem c9_theorem (logLevel commandFullName extension timestamp : String)
    (h : 2 ≤ commandFullName.data.count ' ') :
    ' ' ∈ (makeLogfileName logLevel commandFullName extension timestamp).data := by
  have hmem : ' ' ∈ commandFullName.data :=
    List.count_pos_iff.mp (by omega)
  have hcount := count_replaceFirstChar ' ' '-' (by decide) commandFullName.data hmem
  have hpos : 0 < (replaceFirstChar ' ' '-' commandFullName.data).count ' ' := by omega
  have hmem2 : ' ' ∈ replaceFirstChar ' ' '-' commandFullName.data :=
    List.count_pos_iff.mp hpos
  simp only [makeLogfileName, String.data_append]
  exact List.mem_append_left _ (List.mem_append_left _ (List.mem_append_left _
    (List.mem_append_left _ (List.mem_append_left _ (List.mem_append_left _ hmem2)))))

/-- Witness for `c9_theorem`: the command full name "cloud users list"
has two spaces, and the generated logfile name keeps one. -/
theorem c9_witness :
    (2 ≤ "cloud users list".data.count ' ') ∧
    ' ' ∈ (makeLogfileName "debug" "cloud users list" "log" "2023-01-01T00:00:00.000Z").data :=
  have h : 2 ≤ "cloud users list".data.count ' ' := by decide
  ⟨h, c9_theorem "debug" "cloud users list" "log" "2023-01-01T00:00:00.000Z" h⟩

/-! ## Claim about `UsersListCommand.action` -/

instance : IsTotal UserResult (fun a b => a.name ≤ b.name) :=
  ⟨fun a b => le_total a.name b.name⟩

instance : IsTrans UserResult (fun a b => a.name ≤ b.name) :=
  ⟨fun _ _ _ h1 h2 => le_trans h1 h2⟩

/-- C10: whenever `UsersListCommand.action` succeeds, every user in the
result passes both the name filter and the group filter, the result is
sorted ascending by user name, and if no fetched user passes both
filters the result is empty. -/
theorem c10_theorem (applyFilter : List String → List String → Bool) (hasApi : Bool)
    (project : Option String) (users : List UserResult)
    (nameFilter groupFilter : List String) (res : List UserResult)
    (h : usersListAction applyFilter hasApi project users nameFilter groupFilter =
      Except.ok res) :
    (∀ u ∈ res, applyFilter nameFilter [u.name] = true ∧
      applyFilter groupFilter (u.groups.map UserGroup.name) = true) ∧
    res.Sorted (fun a b => a.name ≤ b.name) ∧
    ((∀ u ∈ users, ¬(applyFilter nameFilter [u.name] = true ∧
      applyFilter groupFilter (u.groups.map UserGroup.name) = true)) → res = []) := by
  simp only [usersListAction, sortByName] at h
  split at h
  · cases h
  · split at h
    · cases h
    · split at h
      · have hres : res = [] := by
          have := Except.ok.inj h
          exact this.symm
        subst hres
        exact ⟨fun u hu => absurd hu (List.not_mem_nil u), List.sorted_nil, fun _ => rfl⟩
      · split at h
        · have hres : res = [] := by
            have := Except.ok.inj h
            exact this.symm
          subst hres
          exact ⟨fun u hu => absurd hu (List.not_mem_nil u), List.sorted_nil, fun _ => rfl⟩
        · rename_i hapi hproj hne hfne
          have hres := (Except.ok.inj h).symm
          subst hres
          refine ⟨?_, ?_, ?_⟩
          · intro u hu
            have h2 := List.mem_filter.mp hu
            have h1 := List.mem_filter.mp h2.1
            exact ⟨h1.2, h2.2⟩
          · exact ((List.sorted_insertionSort (fun a b => a.name ≤ b.name) users).filter
              _).filter _
          · intro hnouser
            exfalso
            apply hfne
            rw [List.isEmpty_iff]
            rw [List.filter_eq_nil_iff]
            intro u hu
            have h1 := List.mem_filter.mp hu
            have hmem : u ∈ users :=
              (List.mem_insertionSort (fun a b => a.name ≤ b.name)).mp h1.1
            intro hg
            exact hnouser u hmem ⟨h1.2, hg⟩

/-- A sample cloud user used by the `c10` witness. -/
def userGordon : UserResult :=
  { name := "gordon", id := 1, vcsUsername := none, groups := [{ name := "devs" }] }

/-- Witness for `c10_theorem` at a concrete input: one fetched user and
filters that accept everything. -/
theorem c10_witness :
    (usersListAction (fun _ _ => true) true (some "proj") [userGordon] [] [] =
      Except.ok [userGordon]) ∧
    ((∀ u ∈ [userGordon], (fun (_ : List String) (_ : List String) => true) [] [u.name] = true ∧
      (fun (_ : List String) (_ : List String) => true) [] (u.groups.map UserGroup.name) = true) ∧
    List.Sorted (fun a b : UserResult => a.name ≤ b.name) [userGordon] ∧
    ((∀ u ∈ [userGordon],
      ¬((fun (_ : List String) (_ : List String) => true) [] [u.name] = true ∧
        (fun (_ : List String) (_ : List String) => true) [] (u.groups.map UserGroup.name) = true)) →
      [userGordon] = [])) :=
  have h : usersListAction (fun _ _ => true) true (some "proj") [userGordon] [] [] =
      Except.ok [userGordon] := rfl
  ⟨h, c10_theorem (fun _ _ => true) true (some "proj") [userGordon] [] [] [userGordon] h⟩

end Garden
